import Mathlib

/-!
Verification of the UDP discovery / reliable-messaging / file-transfer
program `protocolo_udp.py`.

The development shallowly embeds the protocol engine: the global mutable
dictionaries of the Python module become association lists inside an
explicit state record, the inbound dispatcher `handle_message` becomes a
pure state-transition function that also returns the list of observable
effects (messages sent, content displayed, file writes and removals), and
the sender-side retry loops become recursive functions parameterised by
oracles giving, per attempt, whether `send_message_to_ip` succeeded and
what `wait_for_ack` observed.  SHA-256 itself is an external library call;
it is modelled as an abstract function parameter `hashFn : Bytes → String`.
Base64 decoding is likewise external: CHUNK payloads carry the decoded
bytes directly.
-/

/-- Raw file bytes, each in `0..255` (the byte range is irrelevant to the
claims, so plain `Nat` entries are used). -/
abbrev Bytes := List Nat

/-- `MAX_RETRIES = 10` in `protocolo_udp.py`. -/
def MAX_RETRIES : Nat := 10

/-- `CHUNK_SIZE = 250` in `protocolo_udp.py`. -/
def CHUNK_SIZE : Nat := 250

/-- `ACK_TIMEOUT = 2` (seconds) in `protocolo_udp.py`. -/
def ACK_TIMEOUT : Nat := 2

/-- `DEVICE_TIMEOUT = 120` (seconds) in `protocolo_udp.py`. -/
def DEVICE_TIMEOUT : Nat := 120

/-- Association-list lookup, the embedding of Python `d[k]` / `k in d`
(first entry wins; execution states keep keys unique). -/
def alookup {κ β : Type} [DecidableEq κ] : List (κ × β) → κ → Option β
  | [], _ => none
  | (k, v) :: rest, key => if k = key then some v else alookup rest key

/-- Association-list assignment, the embedding of Python `d[k] = v`:
replaces the value in place when the key is present, otherwise appends at
the end (Python dicts preserve insertion order). -/
def aupdate {κ β : Type} [DecidableEq κ] : List (κ × β) → κ → β → List (κ × β)
  | [], key, v => [(key, v)]
  | (k, w) :: rest, key, v =>
      if k = key then (key, v) :: rest else (k, w) :: aupdate rest key v

/-- Association-list removal, the embedding of Python `del d[k]` (removes
the first entry with the key; execution states keep keys unique). -/
def aerase {κ β : Type} [DecidableEq κ] : List (κ × β) → κ → List (κ × β)
  | [], _ => []
  | (k, w) :: rest, key => if k = key then rest else (k, w) :: aerase rest key

/-- A `known_devices` entry: `(ip, porta, última_vez_visto)`. -/
structure DevInfo where
  ip : String
  port : Nat
  lastSeen : Nat
deriving DecidableEq

/-- A `pending_files` entry: `(nome_arquivo, tamanho_total, chunks_recebidos,
origem)`. -/
structure PendingFile where
  filename : String
  fileSize : Nat
  chunksReceived : Nat
  sender : String
deriving DecidableEq

/-- The module-level mutable state of `protocolo_udp.py`. -/
structure PState where
  knownDevices : List (String × DevInfo)
  receivedIds : List String
  ackReceived : List (String × Bool)
  pendingFiles : List (String × PendingFile)
  fileChunks : List (String × List (Nat × Bytes))
deriving DecidableEq

/-- A decoded inbound datagram, as dispatched on by `handle_message`
(`parts[0]` selects the constructor).  CHUNK data is carried already
base64-decoded. -/
inductive Msg where
  | heartbeat (name : String)
  | talk (id content : String)
  | file (id filename : String) (size : Nat)
  | chunk (id : String) (seq : Nat) (data : Bytes)
  | endMsg (id hash : String)
  | ack (id : String)
  | nack (id reason : String)
deriving DecidableEq

/-- An observable effect of processing a message: a datagram sent back
(`send_message_to_ip`), a TALK surfaced for display, a file written, or a
file removed. -/
inductive Effect where
  | sendMsg (ip : String) (payload : String)
  | displayTalk (sender content : String)
  | writeFile (path : String) (bytes : Bytes)
  | removeFile (path : String)
deriving DecidableEq

/-- Sender-name resolution by reverse IP lookup over `known_devices`
(first device whose ip matches, in insertion order; default
`"Dispositivo desconhecido"`). -/
def resolveSender : List (String × DevInfo) → String → String
  | [], _ => "Dispositivo desconhecido"
  | (name, d) :: rest, ip => if d.ip = ip then name else resolveSender rest ip

/-- Order on stored chunk entries by sequence number. -/
def chunkLE (a b : Nat × Bytes) : Prop := a.1 ≤ b.1

instance : DecidableRel chunkLE := fun a b => Nat.decLe a.1 b.1

instance : IsTotal (Nat × Bytes) chunkLE := ⟨fun a b => Nat.le_total a.1 b.1⟩

instance : IsTrans (Nat × Bytes) chunkLE := ⟨fun _ _ _ hab hbc => Nat.le_trans hab hbc⟩

/-- Sort chunk entries by sequence number, the embedding of
`sorted(file_chunks[file_id].keys())` followed by indexing (keys are
unique in every reachable state, so sorting the pairs by key agrees with
sorting the keys and looking each one up). -/
def sortPairs (m : List (Nat × Bytes)) : List (Nat × Bytes) := List.insertionSort chunkLE m

/-- The bytes the END handler writes: chunk payloads concatenated in
ascending sequence-number order (`for seq in sorted(...): f.write(...)`). -/
def reassemble (m : List (Nat × Bytes)) : Bytes := ((sortPairs m).map Prod.snd).flatten

/-- The inbound dispatcher `handle_message(message, addr)`.

`hashFn` stands for SHA-256 over the written bytes (`calculate_file_hash`
re-reads the file just written, so it hashes exactly the reassembled
bytes).  `endIoFail` models the END handler's `try` block raising while
writing or hashing the output file (the `except` path at the end of the
END branch).  `selfName` is `device_name`, `now` the current time, `ip`
and `port` the datagram's source address.  Returns the new state and the
observable effects in program order. -/
def handle_message (hashFn : Bytes → String) (endIoFail : Bool) (selfName : String)
    (now : Nat) (st : PState) (ip : String) (port : Nat) (msg : Msg) :
    PState × List Effect :=
  match msg with
  | .heartbeat name =>
      if name ≠ selfName then
        ({ st with knownDevices := aupdate st.knownDevices name ⟨ip, port, now⟩ }, [])
      else (st, [])
  | .talk id content =>
      if id ∈ st.receivedIds then
        (st, [.sendMsg ip ("ACK " ++ id)])
      else
        ({ st with receivedIds := id :: st.receivedIds },
         [.displayTalk (resolveSender st.knownDevices ip) content,
          .sendMsg ip ("ACK " ++ id)])
  | .file fid filename size =>
      if (alookup st.pendingFiles fid).isSome then
        (st, [.sendMsg ip ("ACK " ++ fid)])
      else
        ({ st with
            fileChunks := aupdate st.fileChunks fid [],
            pendingFiles :=
              aupdate st.pendingFiles fid
                ⟨filename, size, 0, resolveSender st.knownDevices ip⟩ },
         [.sendMsg ip ("ACK " ++ fid)])
  | .chunk fid seq data =>
      match alookup st.pendingFiles fid with
      | none => (st, [])
      | some pf =>
        match alookup st.fileChunks fid with
        | none => (st, [])
        | some inner =>
          if (alookup inner seq).isSome then
            (st, [.sendMsg ip ("ACK " ++ fid ++ "-" ++ toString seq)])
          else
            ({ st with
                fileChunks := aupdate st.fileChunks fid (aupdate inner seq data),
                pendingFiles :=
                  aupdate st.pendingFiles fid
                    ⟨pf.filename, pf.fileSize, pf.chunksReceived + 1, pf.sender⟩ },
             [.sendMsg ip ("ACK " ++ fid ++ "-" ++ toString seq)])
  | .endMsg fid declHash =>
      match alookup st.pendingFiles fid with
      | none => (st, [])
      | some pf =>
        if endIoFail then
          (st, [.sendMsg ip ("NACK " ++ fid ++ " erro_processamento")])
        else
          if hashFn (reassemble ((alookup st.fileChunks fid).getD [])) ≠ declHash then
            ({ st with
                pendingFiles := aerase st.pendingFiles fid,
                fileChunks := aerase st.fileChunks fid },
             [.writeFile ("/root/" ++ pf.filename)
                (reassemble ((alookup st.fileChunks fid).getD [])),
              .removeFile ("/root/" ++ pf.filename),
              .sendMsg ip ("NACK " ++ fid ++ " hash_invalido")])
          else
            ({ st with
                pendingFiles := aerase st.pendingFiles fid,
                fileChunks := aerase st.fileChunks fid },
             [.writeFile ("/root/" ++ pf.filename)
                (reassemble ((alookup st.fileChunks fid).getD [])),
              .sendMsg ip ("ACK " ++ fid)])
  | .ack id => ({ st with ackReceived := aupdate st.ackReceived id true }, [])
  | .nack id _ => ({ st with ackReceived := aupdate st.ackReceived id false }, [])

/-- The polling phase of `wait_for_ack`: `arrivals` is the sequence of
`ack_received[id] = b` writes the listener thread performs during the wait
window (each an ACK or NACK landing in the shared dict); after each write
the waiter's next poll checks the map.  If no matching record appears by
the end of the window the wait times out (`None`). -/
def pollAck (id : String) : List (String × Bool) → List (String × Bool) →
    Option Bool × List (String × Bool)
  | m, [] => (none, m)
  | m, (k, v) :: rest =>
      match alookup (aupdate m k v) id with
      | some b => (some b, aupdate m k v)
      | none => pollAck id (aupdate m k v) rest

/-- `wait_for_ack(ack_id, timeout)`: first deletes any stale prior record
for the id, then polls until a record appears or the window (here: the
arrival sequence) is exhausted.  Returns the observed outcome
(`some true` for ACK, `some false` for NACK, `none` for timeout) together
with the final contents of `ack_received`. -/
def wait_for_ack (m : List (String × Bool)) (id : String)
    (arrivals : List (String × Bool)) : Option Bool × List (String × Bool) :=
  pollAck id (aerase m id) arrivals

/-- Outcome of a sender-side retry loop: ACK received, NACK received and
treated as terminal, or all retries exhausted without a definitive answer. -/
inductive OpResult where
  | success
  | rejected
  | exhausted
deriving DecidableEq

/-- Observable event of one retry-loop iteration: a call to
`send_message_to_ip` or a fixed backoff `time.sleep(secs)`. -/
inductive LoopEvent where
  | sendAttempt
  | sleepBackoff (secs : Nat)
deriving DecidableEq

/-- The retry loop shared (up to messages printed) by the TALK send
(`talk_to_device`, attempts loop), the FILE announcement and the END send
(both in `transfer_file`): each iteration sends, waits; ACK returns
success, NACK returns rejection immediately, timeout sleeps 1 s and
retries while `attempt < MAX_RETRIES`.  `sendOk attempt` is the boolean
result of `send_message_to_ip` on that attempt (when it is `false` the
wait is skipped); `wait attempt` is what `wait_for_ack` observes on that
attempt.  `attempt` is the 1-based loop counter, `remaining` the number of
iterations the `range` still has (the entry point below starts it at
`MAX_RETRIES`). -/
def ackRetryGo (sendOk : Nat → Bool) (wait : Nat → Option Bool) :
    Nat → Nat → OpResult × List LoopEvent
  | _, 0 => (OpResult.exhausted, [])
  | attempt, remaining + 1 =>
      match (if sendOk attempt then wait attempt else none) with
      | some true => (OpResult.success, [LoopEvent.sendAttempt])
      | some false => (OpResult.rejected, [LoopEvent.sendAttempt])
      | none =>
          if attempt < MAX_RETRIES then
            ((ackRetryGo sendOk wait (attempt + 1) remaining).1,
             LoopEvent.sendAttempt :: LoopEvent.sleepBackoff 1 ::
               (ackRetryGo sendOk wait (attempt + 1) remaining).2)
          else
            (OpResult.exhausted, [LoopEvent.sendAttempt])

/-- `for attempt in range(1, MAX_RETRIES + 1)` entry point of the
NACK-terminal retry loop. -/
def ackRetryLoop (sendOk : Nat → Bool) (wait : Nat → Option Bool) :
    OpResult × List LoopEvent :=
  ackRetryGo sendOk wait 1 MAX_RETRIES

/-- The per-CHUNK retry loop inside `transfer_file`: identical to
`ackRetryGo` except that a NACK does not terminate it — the code prints
"Chunk rejeitado" and falls through to the same sleep-and-retry path as a
timeout ("Continuar tentando"), so only an ACK stops it early. -/
def chunkRetryGo (sendOk : Nat → Bool) (wait : Nat → Option Bool) :
    Nat → Nat → OpResult × List LoopEvent
  | _, 0 => (OpResult.exhausted, [])
  | attempt, remaining + 1 =>
      match (if sendOk attempt then wait attempt else none) with
      | some true => (OpResult.success, [LoopEvent.sendAttempt])
      | _ =>
          if attempt < MAX_RETRIES then
            ((chunkRetryGo sendOk wait (attempt + 1) remaining).1,
             LoopEvent.sendAttempt :: LoopEvent.sleepBackoff 1 ::
               (chunkRetryGo sendOk wait (attempt + 1) remaining).2)
          else
            (OpResult.exhausted, [LoopEvent.sendAttempt])

/-- `for attempt in range(1, MAX_RETRIES + 1)` entry point of the CHUNK
retry loop. -/
def chunkRetryLoop (sendOk : Nat → Bool) (wait : Nat → Option Bool) :
    OpResult × List LoopEvent :=
  chunkRetryGo sendOk wait 1 MAX_RETRIES

/-- Result of a `talk_to_device` call: the boolean returned to the caller,
whether a message id was generated (`generate_message_id` is only reached
after the registry check), and the retry-loop events (empty when the call
is rejected up front). -/
structure TalkCall where
  ok : Bool
  idGenerated : Bool
  events : List LoopEvent
deriving DecidableEq

/-- `talk_to_device(target_device, content)`: looks the target up in
`known_devices`; unknown targets are rejected at once with `False`;
otherwise a message id is generated and the NACK-terminal retry loop runs. -/
def talk_to_device (devices : List (String × DevInfo)) (target : String)
    (sendOk : Nat → Bool) (wait : Nat → Option Bool) : TalkCall :=
  match alookup devices target with
  | none => ⟨false, false, []⟩
  | some _ =>
      ⟨(ackRetryLoop sendOk wait).1 = OpResult.success, true,
       (ackRetryLoop sendOk wait).2⟩

/-- Result of a `send_file_to_device` call: the boolean returned to the
caller and whether a transfer thread was started. -/
structure SendFileCall where
  ok : Bool
  transferStarted : Bool
deriving DecidableEq

/-- `send_file_to_device(target_device, file_path)`: checks that the file
exists, then that the target is in `known_devices`; only then is the
`transfer_file` thread started. -/
def send_file_to_device (fileExists : Bool) (devices : List (String × DevInfo))
    (target : String) : SendFileCall :=
  if fileExists then
    match alookup devices target with
    | none => ⟨false, false⟩
    | some _ => ⟨true, true⟩
  else ⟨false, false⟩

/-- Fold the inbound CHUNK handler over a list of arriving chunks
`(seq, data)` for file id `fid`, in arrival order. -/
def processChunks (hashFn : Bytes → String) (selfName : String) (now : Nat)
    (ip : String) (port : Nat) (fid : String) (st : PState)
    (arr : List (Nat × Bytes)) : PState :=
  arr.foldl
    (fun s p => (handle_message hashFn false selfName now s ip port (Msg.chunk fid p.1 p.2)).1)
    st

/-- The event trace of a retry loop that times out on every one of its
`remaining` iterations: a send per iteration with a 1-second backoff
between consecutive iterations (no sleep after the last one). -/
def timeoutTrace : Nat → List LoopEvent
  | 0 => []
  | 1 => [LoopEvent.sendAttempt]
  | n + 2 => LoopEvent.sendAttempt :: LoopEvent.sleepBackoff 1 :: timeoutTrace (n + 1)

theorem alookup_aupdate_self {κ β : Type} [DecidableEq κ]
    (m : List (κ × β)) (k : κ) (v : β) : alookup (aupdate m k v) k = some v := by
  induction m with
  | nil => simp [aupdate, alookup]
  | cons p rest ih =>
      rcases p with ⟨k0, w⟩
      by_cases h : k0 = k
      · subst h; simp [aupdate, alookup]
      · simp [aupdate, alookup, h, ih]

theorem alookup_aupdate_ne {κ β : Type} [DecidableEq κ]
    (m : List (κ × β)) (k key : κ) (v : β) (h : k ≠ key) :
    alookup (aupdate m k v) key = alookup m key := by
  induction m with
  | nil => simp [aupdate, alookup, h]
  | cons p rest ih =>
      rcases p with ⟨k0, w⟩
      by_cases h0 : k0 = k
      · subst h0; simp [aupdate, alookup, h]
      · simp [aupdate, alookup, h0, ih]

theorem alookup_eq_none_of_not_mem {κ β : Type} [DecidableEq κ]
    (m : List (κ × β)) (key : κ) (h : key ∉ m.map Prod.fst) :
    alookup m key = none := by
  induction m with
  | nil => rfl
  | cons p rest ih =>
      rcases p with ⟨k0, w⟩
      simp only [List.map_cons, List.mem_cons, not_or] at h
      have hne : k0 ≠ key := fun he => h.1 he.symm
      simp [alookup, hne, ih h.2]

theorem alookup_aerase_self_of_nodup {κ β : Type} [DecidableEq κ]
    (m : List (κ × β)) (key : κ) (h : (m.map Prod.fst).Nodup) :
    alookup (aerase m key) key = none := by
  induction m with
  | nil => rfl
  | cons p rest ih =>
      rcases p with ⟨k0, w⟩
      simp only [List.map_cons, List.nodup_cons] at h
      by_cases h0 : k0 = key
      · subst h0
        simpa [aerase] using alookup_eq_none_of_not_mem rest k0 h.1
      · simp [aerase, alookup, h0, ih h.2]

theorem aupdate_append_of_absent {κ β : Type} [DecidableEq κ]
    (m : List (κ × β)) (k : κ) (v : β) (h : alookup m k = none) :
    aupdate m k v = m ++ [(k, v)] := by
  induction m with
  | nil => rfl
  | cons p rest ih =>
      rcases p with ⟨k0, w⟩
      by_cases h0 : k0 = k
      · simp [alookup, h0] at h
      · simp only [alookup, if_neg h0] at h
        simp [aupdate, h0, ih h]

theorem alookup_append {κ β : Type} [DecidableEq κ]
    (m₁ m₂ : List (κ × β)) (key : κ) (h : alookup m₁ key = none) :
    alookup (m₁ ++ m₂) key = alookup m₂ key := by
  induction m₁ with
  | nil => rfl
  | cons p rest ih =>
      rcases p with ⟨k0, w⟩
      by_cases h0 : k0 = key
      · simp [alookup, h0] at h
      · simp only [alookup, if_neg h0] at h
        simp [alookup, h0, ih h]

/-- Claim C6: re-delivering a TALK with an id already in the duplicate
filter causes no state change and no display, but still re-emits an ACK
for that id; hence two back-to-back TALKs with the same (previously
unseen) id leave the state after the first delivery untouched and
produce exactly two `ACK id` sends and exactly one display of the
content. -/
theorem talk_duplicate_reack_single_display (hashFn : Bytes → String)
    (endIoFail : Bool) (selfName : String) (now : Nat) (st : PState)
    (ip : String) (port : Nat) (id content : String)
    (h : id ∉ st.receivedIds) :
    handle_message hashFn endIoFail selfName now st ip port (Msg.talk id content) =
      ({ st with receivedIds := id :: st.receivedIds },
       [Effect.displayTalk (resolveSender st.knownDevices ip) content,
        Effect.sendMsg ip ("ACK " ++ id)]) ∧
    handle_message hashFn endIoFail selfName now
        { st with receivedIds := id :: st.receivedIds } ip port (Msg.talk id content) =
      ({ st with receivedIds := id :: st.receivedIds },
       [Effect.sendMsg ip ("ACK " ++ id)]) := by
  constructor
  · simp [handle_message, h]
  · simp [handle_message]

theorem talk_duplicate_reack_single_display_witness :
    ("m1" ∉ PState.receivedIds ⟨[], [], [], [], []⟩) ∧
    handle_message (fun _ => "h") false "me" 0 ⟨[], [], [], [], []⟩ "1.1.1.1" 5000
        (Msg.talk "m1" "oi") =
      (⟨[], ["m1"], [], [], []⟩,
       [Effect.displayTalk "Dispositivo desconhecido" "oi",
        Effect.sendMsg "1.1.1.1" "ACK m1"]) ∧
    handle_message (fun _ => "h") false "me" 0 ⟨[], ["m1"], [], [], []⟩ "1.1.1.1" 5000
        (Msg.talk "m1" "oi") =
      (⟨[], ["m1"], [], [], []⟩, [Effect.sendMsg "1.1.1.1" "ACK m1"]) := by
  refine ⟨by decide, ?_⟩
  exact talk_duplicate_reack_single_display (fun _ => "h") false "me" 0
    ⟨[], [], [], [], []⟩ "1.1.1.1" 5000 "m1" "oi" (by decide)

/-- Claim C7: a CHUNK whose file id has no pending transfer is dropped
silently: the state is unchanged and no effect at all (no ACK, no NACK,
no store) is produced. -/
theorem chunk_unknown_file_dropped (hashFn : Bytes → String)
    (endIoFail : Bool) (selfName : String) (now : Nat) (st : PState)
    (ip : String) (port : Nat) (fid : String) (seq : Nat) (data : Bytes)
    (h : alookup st.pendingFiles fid = none) :
    handle_message hashFn endIoFail selfName now st ip port (Msg.chunk fid seq data) =
      (st, []) := by
  simp [handle_message, h]

theorem chunk_unknown_file_dropped_witness :
    alookup (PState.pendingFiles ⟨[], [], [], [], []⟩) "X" = none ∧
    handle_message (fun _ => "h") false "me" 0 ⟨[], [], [], [], []⟩ "1.1.1.1" 5000
        (Msg.chunk "X" 0 [7]) = (⟨[], [], [], [], []⟩, []) :=
  ⟨rfl, chunk_unknown_file_dropped (fun _ => "h") false "me" 0
    ⟨[], [], [], [], []⟩ "1.1.1.1" 5000 "X" 0 [7] rfl⟩

/-- Claim C8: a `talk_to_device` or `send_file_to_device` call whose
target is absent from `known_devices` fails synchronously: the result is
`False`, no retry-loop event (in particular no send) occurs, no message
id is generated, and no transfer thread is started. -/
theorem unknown_target_rejected_before_send (devices : List (String × DevInfo))
    (target : String) (sendOk : Nat → Bool) (wait : Nat → Option Bool)
    (fileExists : Bool) (h : alookup devices target = none) :
    talk_to_device devices target sendOk wait = ⟨false, false, []⟩ ∧
    send_file_to_device fileExists devices target = ⟨false, false⟩ := by
  constructor
  · simp [talk_to_device, h]
  · cases fileExists <;> simp [send_file_to_device, h]

theorem unknown_target_rejected_before_send_witness :
    alookup [("bob", DevInfo.mk "2.2.2.2" 5000 0)] "alice" = none ∧
    talk_to_device [("bob", DevInfo.mk "2.2.2.2" 5000 0)] "alice"
        (fun _ => true) (fun _ => some true) = ⟨false, false, []⟩ ∧
    send_file_to_device true [("bob", DevInfo.mk "2.2.2.2" 5000 0)] "alice" =
      ⟨false, false⟩ := by
  refine ⟨by decide, ?_, ?_⟩
  · exact (unknown_target_rejected_before_send [("bob", DevInfo.mk "2.2.2.2" 5000 0)]
      "alice" (fun _ => true) (fun _ => some true) true (by decide)).1
  · exact (unknown_target_rejected_before_send [("bob", DevInfo.mk "2.2.2.2" 5000 0)]
      "alice" (fun _ => true) (fun _ => some true) true (by decide)).2

/-- Claim C10: when END processing fails with an exception after the
pending-state check (output file cannot be written or hashed), the
receiver sends `NACK <fid> erro_processamento` to the source address and
keeps the whole state: the pending entry and the stored chunks for the
file id remain exactly as they were. -/
theorem end_io_error_keeps_state (hashFn : Bytes → String) (selfName : String)
    (now : Nat) (st : PState) (ip : String) (port : Nat)
    (fid declHash : String) (pf : PendingFile)
    (h : alookup st.pendingFiles fid = some pf) :
    handle_message hashFn true selfName now st ip port (Msg.endMsg fid declHash) =
      (st, [Effect.sendMsg ip ("NACK " ++ fid ++ " erro_processamento")]) := by
  simp [handle_message, h]

theorem end_io_error_keeps_state_witness :
    alookup (PState.pendingFiles
        ⟨[], [], [], [("f", ⟨"a.txt", 4, 1, "s"⟩)], [("f", [(0, [1, 2, 3, 4])])]⟩) "f" =
      some ⟨"a.txt", 4, 1, "s"⟩ ∧
    handle_message (fun _ => "h") true "me" 0
        ⟨[], [], [], [("f", ⟨"a.txt", 4, 1, "s"⟩)], [("f", [(0, [1, 2, 3, 4])])]⟩
        "1.1.1.1" 5000 (Msg.endMsg "f" "h") =
      (⟨[], [], [], [("f", ⟨"a.txt", 4, 1, "s"⟩)], [("f", [(0, [1, 2, 3, 4])])]⟩,
       [Effect.sendMsg "1.1.1.1" "NACK f erro_processamento"]) :=
  ⟨rfl, end_io_error_keeps_state (fun _ => "h") "me" 0
    ⟨[], [], [], [("f", ⟨"a.txt", 4, 1, "s"⟩)], [("f", [(0, [1, 2, 3, 4])])]⟩
    "1.1.1.1" 5000 "f" "h" ⟨"a.txt", 4, 1, "s"⟩ rfl⟩

/-- Claim C3: on END with a hash mismatch (recomputed hash over the
reassembled bytes differs from the declared hash), the written output is
removed again (`writeFile` followed by `removeFile` of the same path, so
the file is not retained), the pending entry and the stored chunks for
the file id are discarded, and `NACK <fid> hash_invalido` is sent to the
source address. -/
theorem end_hash_mismatch_discards (hashFn : Bytes → String) (selfName : String)
    (now : Nat) (st : PState) (ip : String) (port : Nat)
    (fid declHash : String) (pf : PendingFile)
    (hp : alookup st.pendingFiles fid = some pf)
    (hh : hashFn (reassemble ((alookup st.fileChunks fid).getD [])) ≠ declHash)
    (hnp : (st.pendingFiles.map Prod.fst).Nodup)
    (hnc : (st.fileChunks.map Prod.fst).Nodup) :
    handle_message hashFn false selfName now st ip port (Msg.endMsg fid declHash) =
      ({ st with
          pendingFiles := aerase st.pendingFiles fid,
          fileChunks := aerase st.fileChunks fid },
       [Effect.writeFile ("/root/" ++ pf.filename)
          (reassemble ((alookup st.fileChunks fid).getD [])),
        Effect.removeFile ("/root/" ++ pf.filename),
        Effect.sendMsg ip ("NACK " ++ fid ++ " hash_invalido")]) ∧
    alookup (aerase st.pendingFiles fid) fid = none ∧
    alookup (aerase st.fileChunks fid) fid = none := by
  refine ⟨?_, alookup_aerase_self_of_nodup _ _ hnp, alookup_aerase_self_of_nodup _ _ hnc⟩
  simp [handle_message, hp, hh]

theorem end_hash_mismatch_discards_witness :
    ((fun _ : Bytes => "calc")
        (reassemble ((alookup [("f", [(0, ([9] : Bytes))])] "f").getD [])) ≠ "decl") ∧
    handle_message (fun _ => "calc") false "me" 0
        ⟨[], [], [], [("f", ⟨"a.txt", 1, 1, "s"⟩)], [("f", [(0, [9])])]⟩
        "1.1.1.1" 5000 (Msg.endMsg "f" "decl") =
      (⟨[], [], [], [], []⟩,
       [Effect.writeFile "/root/a.txt" [9],
        Effect.removeFile "/root/a.txt",
        Effect.sendMsg "1.1.1.1" "NACK f hash_invalido"]) ∧
    alookup (aerase [("f", (⟨"a.txt", 1, 1, "s"⟩ : PendingFile))] "f") "f" = none := by
  refine ⟨by decide, ?_, ?_⟩
  · exact (end_hash_mismatch_discards (fun _ => "calc") "me" 0
      ⟨[], [], [], [("f", ⟨"a.txt", 1, 1, "s"⟩)], [("f", [(0, [9])])]⟩
      "1.1.1.1" 5000 "f" "decl" ⟨"a.txt", 1, 1, "s"⟩ rfl (by decide)
      (by decide) (by decide)).1
  · exact (end_hash_mismatch_discards (fun _ => "calc") "me" 0
      ⟨[], [], [], [("f", ⟨"a.txt", 1, 1, "s"⟩)], [("f", [(0, [9])])]⟩
      "1.1.1.1" 5000 "f" "decl" ⟨"a.txt", 1, 1, "s"⟩ rfl (by decide)
      (by decide) (by decide)).2.1

/-- Claim C9: END processing performs no completeness check against
`ceil(declared size / CHUNK_SIZE)`: even when strictly fewer chunks are
stored than the declared size requires, the receiver finalizes with
whatever chunks arrived, and the outcome is decided solely by the hash
comparison — ACK on match, `NACK hash_invalido` on mismatch. -/
theorem end_ignores_chunk_count (hashFn : Bytes → String) (selfName : String)
    (now : Nat) (st : PState) (ip : String) (port : Nat)
    (fid declHash : String) (pf : PendingFile) (m : List (Nat × Bytes))
    (hp : alookup st.pendingFiles fid = some pf)
    (hc : alookup st.fileChunks fid = some m)
    (_hmiss : m.length < (pf.fileSize + CHUNK_SIZE - 1) / CHUNK_SIZE) :
    handle_message hashFn false selfName now st ip port (Msg.endMsg fid declHash) =
      ({ st with
          pendingFiles := aerase st.pendingFiles fid,
          fileChunks := aerase st.fileChunks fid },
       if hashFn (reassemble m) = declHash then
         [Effect.writeFile ("/root/" ++ pf.filename) (reassemble m),
          Effect.sendMsg ip ("ACK " ++ fid)]
       else
         [Effect.writeFile ("/root/" ++ pf.filename) (reassemble m),
          Effect.removeFile ("/root/" ++ pf.filename),
          Effect.sendMsg ip ("NACK " ++ fid ++ " hash_invalido")]) := by
  by_cases hh : hashFn (reassemble m) = declHash <;>
    simp [handle_message, hp, hc, hh]

theorem end_ignores_chunk_count_witness :
    (([(0, ([9] : Bytes))] : List (Nat × Bytes)).length <
      ((500 : Nat) + CHUNK_SIZE - 1) / CHUNK_SIZE) ∧
    handle_message (fun _ => "h") false "me" 0
        ⟨[], [], [], [("f", ⟨"a.txt", 500, 1, "s"⟩)], [("f", [(0, [9])])]⟩
        "1.1.1.1" 5000 (Msg.endMsg "f" "h") =
      (⟨[], [], [], [], []⟩,
       if (fun _ : Bytes => "h") (reassemble [(0, [9])]) = "h" then
         [Effect.writeFile "/root/a.txt" (reassemble [(0, [9])]),
          Effect.sendMsg "1.1.1.1" "ACK f"]
       else
         [Effect.writeFile "/root/a.txt" (reassemble [(0, [9])]),
          Effect.removeFile "/root/a.txt",
          Effect.sendMsg "1.1.1.1" "NACK f hash_invalido"]) := by
  refine ⟨by decide, ?_⟩
  exact end_ignores_chunk_count (fun _ => "h") "me" 0
    ⟨[], [], [], [("f", ⟨"a.txt", 500, 1, "s"⟩)], [("f", [(0, [9])])]⟩
    "1.1.1.1" 5000 "f" "h" ⟨"a.txt", 500, 1, "s"⟩ [(0, [9])] rfl rfl (by decide)

theorem pollAck_lookup (id : String) :
    ∀ (arrivals m m2 : List (String × Bool)) (b : Bool),
      pollAck id m arrivals = (some b, m2) → alookup m2 id = some b := by
  intro arrivals
  induction arrivals with
  | nil =>
      intro m m2 b h
      simp [pollAck] at h
  | cons p rest ih =>
      intro m m2 b h
      rcases p with ⟨k, v⟩
      rw [pollAck] at h
      cases hl : alookup (aupdate m k v) id with
      | some c =>
          rw [hl] at h
          simp only [Prod.mk.injEq, Option.some.injEq] at h
          obtain ⟨hb, hm⟩ := h
          subst hb
          subst hm
          exact hl
      | none =>
          rw [hl] at h
          exact ih _ _ _ h

/-- Claim C2 counterexample: a wait that sees an ACK arrive returns
Positive but leaves the delivery record in the tracker map — after the
wait for `"a"` returns `some true`, the map still holds `("a", true)`,
so the record was read, not consumed and removed. -/
theorem wait_ack_not_removed_counterexample :
    wait_for_ack [] "a" [("a", true)] = (some true, [("a", true)]) ∧
    alookup (wait_for_ack [] "a" [("a", true)]).2 "a" = some true := by
  constructor <;> decide

/-- Claim C2 amended: when `wait_for_ack` returns a Positive or Negative
outcome for an id, the delivery record is still present in the tracker
map with that value — the waiter only reads it.  The only removal the
waiter performs is the stale-record clear at the very start of a wait
(a wait with no matching arrival just times out on the cleared map). -/
theorem wait_ack_read_not_removed (m : List (String × Bool)) (id : String)
    (arrivals : List (String × Bool)) (b : Bool) (m2 : List (String × Bool))
    (h : wait_for_ack m id arrivals = (some b, m2)) :
    alookup m2 id = some b ∧ wait_for_ack m id [] = (none, aerase m id) :=
  ⟨pollAck_lookup id arrivals (aerase m id) m2 b h, rfl⟩

theorem wait_ack_read_not_removed_witness :
    wait_for_ack [("a", false)] "a" [("a", false)] = (some false, [("a", false)]) ∧
    (alookup [("a", false)] "a" = some false ∧
      wait_for_ack [("a", false)] "a" [] = (none, [])) := by
  refine ⟨by decide, ?_⟩
  exact wait_ack_read_not_removed [("a", false)] "a" [("a", false)] false
    [("a", false)] (by decide)

/-- Claim C1 counterexample: for the CHUNK send loop a NACK is *not*
terminal.  With the wait observing a NACK on attempt 1 and an ACK on
attempt 2, the loop does not fail: it sleeps, performs a further send
attempt, and returns success — two send attempts in total after the
NACK was recorded on the first. -/
theorem chunk_nack_keeps_retrying_counterexample :
    chunkRetryLoop (fun _ => true) (fun n => if n = 1 then some false else some true) =
      (OpResult.success,
       [LoopEvent.sendAttempt, LoopEvent.sleepBackoff 1, LoopEvent.sendAttempt]) ∧
    (chunkRetryLoop (fun _ => true)
        (fun n => if n = 1 then some false else some true)).1 ≠ OpResult.rejected ∧
    (chunkRetryLoop (fun _ => true)
        (fun n => if n = 1 then some false else some true)).2.count
      LoopEvent.sendAttempt = 2 := by
  refine ⟨?_, ?_, ?_⟩ <;> decide

/-- Claim C1 amended: a NACK recorded while waiting is terminal for the
TALK, FILE and END retry loops — the iteration that observes it returns
rejection at once, with no backoff and no further send attempt, whatever
retry budget remains — but not for the CHUNK retry loop, which treats the
NACK like a timeout: while budget remains it sleeps the fixed 1-second
backoff and proceeds to a further send attempt. -/
theorem nack_short_circuit_except_chunk (sendOk : Nat → Bool)
    (wait : Nat → Option Bool) (attempt remaining : Nat)
    (hs : sendOk attempt = true) (hw : wait attempt = some false) :
    ackRetryGo sendOk wait attempt (remaining + 1) =
      (OpResult.rejected, [LoopEvent.sendAttempt]) ∧
    (attempt < MAX_RETRIES →
      chunkRetryGo sendOk wait attempt (remaining + 1) =
        ((chunkRetryGo sendOk wait (attempt + 1) remaining).1,
         LoopEvent.sendAttempt :: LoopEvent.sleepBackoff 1 ::
           (chunkRetryGo sendOk wait (attempt + 1) remaining).2)) := by
  constructor
  · simp [ackRetryGo, hs, hw]
  · intro hlt
    simp [chunkRetryGo, hs, hw, hlt]

theorem nack_short_circuit_except_chunk_witness :
    ((fun _ : Nat => true) 1 = true) ∧
    ((fun _ : Nat => some false) 1 = some false) ∧
    (ackRetryGo (fun _ => true) (fun _ => some false) 1 10 =
      (OpResult.rejected, [LoopEvent.sendAttempt]) ∧
     (1 < MAX_RETRIES →
       chunkRetryGo (fun _ => true) (fun _ => some false) 1 10 =
         ((chunkRetryGo (fun _ => true) (fun _ => some false) 2 9).1,
          LoopEvent.sendAttempt :: LoopEvent.sleepBackoff 1 ::
            (chunkRetryGo (fun _ => true) (fun _ => some false) 2 9).2))) := by
  refine ⟨rfl, rfl, ?_⟩
  exact nack_short_circuit_except_chunk (fun _ => true) (fun _ => some false) 1 9 rfl rfl

theorem ackRetryGo_timeout (sendOk : Nat → Bool) (wait : Nat → Option Bool)
    (hw : ∀ n, wait n = none) :
    ∀ (remaining attempt : Nat), attempt + remaining = MAX_RETRIES + 1 →
      ackRetryGo sendOk wait attempt remaining =
        (OpResult.exhausted, timeoutTrace remaining) := by
  intro remaining
  induction remaining with
  | zero =>
      intro attempt _
      simp [ackRetryGo, timeoutTrace]
  | succ r ih =>
      intro attempt hsum
      have hM : (MAX_RETRIES : Nat) = 10 := rfl
      by_cases hlt : attempt < MAX_RETRIES
      · have hr : ∃ r2, r = r2 + 1 := by
          refine ⟨r - 1, ?_⟩
          omega
        obtain ⟨r2, rfl⟩ := hr
        have h1 : (attempt + 1) + (r2 + 1) = MAX_RETRIES + 1 := by omega
        rw [ackRetryGo, hw attempt]
        simp [hlt, ih (attempt + 1) h1, timeoutTrace]
      · have hr : r = 0 := by omega
        subst hr
        rw [ackRetryGo, hw attempt]
        simp [hlt, timeoutTrace]

theorem chunkRetryGo_timeout (sendOk : Nat → Bool) (wait : Nat → Option Bool)
    (hw : ∀ n, wait n = none) :
    ∀ (remaining attempt : Nat), attempt + remaining = MAX_RETRIES + 1 →
      chunkRetryGo sendOk wait attempt remaining =
        (OpResult.exhausted, timeoutTrace remaining) := by
  intro remaining
  induction remaining with
  | zero =>
      intro attempt _
      simp [chunkRetryGo, timeoutTrace]
  | succ r ih =>
      intro attempt hsum
      have hM : (MAX_RETRIES : Nat) = 10 := rfl
      by_cases hlt : attempt < MAX_RETRIES
      · have hr : ∃ r2, r = r2 + 1 := by
          refine ⟨r - 1, ?_⟩
          omega
        obtain ⟨r2, rfl⟩ := hr
        have h1 : (attempt + 1) + (r2 + 1) = MAX_RETRIES + 1 := by omega
        rw [chunkRetryGo, hw attempt]
        simp [hlt, ih (attempt + 1) h1, timeoutTrace]
      · have hr : r = 0 := by omega
        subst hr
        rw [chunkRetryGo, hw attempt]
        simp [hlt, timeoutTrace]

/-- Claim C5: an outbound reliable operation whose wait never observes an
ACK or a NACK performs exactly `MAX_RETRIES = 10` send attempts with the
fixed 1-second backoff between consecutive attempts (and none after the
last), then reports failure: the NACK-terminal loop (TALK, FILE, END) and
the CHUNK loop both produce exactly this trace, and `talk_to_device`
returns `False` to its caller in that case. -/
theorem retry_exhaustion_bound (sendOk : Nat → Bool) (wait : Nat → Option Bool)
    (hw : ∀ n, wait n = none) :
    ackRetryLoop sendOk wait =
      (OpResult.exhausted,
       [LoopEvent.sendAttempt, LoopEvent.sleepBackoff 1,
        LoopEvent.sendAttempt, LoopEvent.sleepBackoff 1,
        LoopEvent.sendAttempt, LoopEvent.sleepBackoff 1,
        LoopEvent.sendAttempt, LoopEvent.sleepBackoff 1,
        LoopEvent.sendAttempt, LoopEvent.sleepBackoff 1,
        LoopEvent.sendAttempt, LoopEvent.sleepBackoff 1,
        LoopEvent.sendAttempt, LoopEvent.sleepBackoff 1,
        LoopEvent.sendAttempt, LoopEvent.sleepBackoff 1,
        LoopEvent.sendAttempt, LoopEvent.sleepBackoff 1,
        LoopEvent.sendAttempt]) ∧
    chunkRetryLoop sendOk wait = ackRetryLoop sendOk wait ∧
    (ackRetryLoop sendOk wait).2.count LoopEvent.sendAttempt = MAX_RETRIES ∧
    (ackRetryLoop sendOk wait).2.count (LoopEvent.sleepBackoff 1) = MAX_RETRIES - 1 ∧
    (∀ (devices : List (String × DevInfo)) (target : String) (d : DevInfo),
      alookup devices target = some d →
      talk_to_device devices target sendOk wait =
        ⟨false, true, (ackRetryLoop sendOk wait).2⟩) := by
  have ha : ackRetryLoop sendOk wait = (OpResult.exhausted, timeoutTrace MAX_RETRIES) :=
    ackRetryGo_timeout sendOk wait hw MAX_RETRIES 1 (Nat.add_comm 1 MAX_RETRIES)
  have hc : chunkRetryLoop sendOk wait = (OpResult.exhausted, timeoutTrace MAX_RETRIES) :=
    chunkRetryGo_timeout sendOk wait hw MAX_RETRIES 1 (Nat.add_comm 1 MAX_RETRIES)
  refine ⟨?_, ?_, ?_, ?_, ?_⟩
  · rw [ha]
    decide
  · rw [ha, hc]
  · rw [ha]
    decide
  · rw [ha]
    decide
  · intro devices target d hd
    simp [talk_to_device, hd, ha]

theorem retry_exhaustion_bound_witness :
    (∀ n : Nat, (fun _ : Nat => (none : Option Bool)) n = none) ∧
    ackRetryLoop (fun _ => true) (fun _ => none) =
      (OpResult.exhausted,
       [LoopEvent.sendAttempt, LoopEvent.sleepBackoff 1,
        LoopEvent.sendAttempt, LoopEvent.sleepBackoff 1,
        LoopEvent.sendAttempt, LoopEvent.sleepBackoff 1,
        LoopEvent.sendAttempt, LoopEvent.sleepBackoff 1,
        LoopEvent.sendAttempt, LoopEvent.sleepBackoff 1,
        LoopEvent.sendAttempt, LoopEvent.sleepBackoff 1,
        LoopEvent.sendAttempt, LoopEvent.sleepBackoff 1,
        LoopEvent.sendAttempt, LoopEvent.sleepBackoff 1,
        LoopEvent.sendAttempt, LoopEvent.sleepBackoff 1,
        LoopEvent.sendAttempt]) :=
  ⟨fun _ => rfl, (retry_exhaustion_bound (fun _ => true) (fun _ => none) (fun _ => rfl)).1⟩

theorem sortPairs_eq_of_perm (l₁ l₂ : List (Nat × Bytes)) (hperm : l₁.Perm l₂)
    (hnd : (l₁.map Prod.fst).Nodup) : sortPairs l₁ = sortPairs l₂ := by
  have hs₁ : List.Sorted chunkLE (sortPairs l₁) := List.sorted_insertionSort chunkLE l₁
  have hs₂ : List.Sorted chunkLE (sortPairs l₂) := List.sorted_insertionSort chunkLE l₂
  have hp12 : (sortPairs l₁).Perm (sortPairs l₂) :=
    ((List.perm_insertionSort chunkLE l₁).trans hperm).trans
      (List.perm_insertionSort chunkLE l₂).symm
  have hnd₁ : ((sortPairs l₁).map Prod.fst).Nodup :=
    (((List.perm_insertionSort chunkLE l₁).map Prod.fst).nodup_iff).mpr hnd
  have hnd₂ : ((sortPairs l₂).map Prod.fst).Nodup :=
    ((hp12.map Prod.fst).nodup_iff).mp hnd₁
  have hne₁ : List.Pairwise (fun a b : Nat × Bytes => a.1 ≠ b.1) (sortPairs l₁) :=
    List.pairwise_map.mp hnd₁
  have hne₂ : List.Pairwise (fun a b : Nat × Bytes => a.1 ≠ b.1) (sortPairs l₂) :=
    List.pairwise_map.mp hnd₂
  have hlt₁ : List.Pairwise (fun a b : Nat × Bytes => a.1 < b.1) (sortPairs l₁) :=
    (hs₁.and hne₁).imp fun h => Nat.lt_of_le_of_ne h.1 h.2
  have hlt₂ : List.Pairwise (fun a b : Nat × Bytes => a.1 < b.1) (sortPairs l₂) :=
    (hs₂.and hne₂).imp fun h => Nat.lt_of_le_of_ne h.1 h.2
  haveI : IsAntisymm (Nat × Bytes) (fun a b : Nat × Bytes => a.1 < b.1) :=
    ⟨fun _ _ h1 h2 => absurd h1 (Nat.lt_asymm h2)⟩
  exact List.eq_of_perm_of_sorted hp12 hlt₁ hlt₂

theorem processChunks_state (hashFn : Bytes → String) (selfName : String)
    (now : Nat) (ip : String) (port : Nat) (fid : String) :
    ∀ (arr : List (Nat × Bytes)) (st : PState) (pf : PendingFile)
      (inner : List (Nat × Bytes)),
      alookup st.pendingFiles fid = some pf →
      alookup st.fileChunks fid = some inner →
      (∀ q ∈ arr, alookup inner q.1 = none) →
      (arr.map Prod.fst).Nodup →
      alookup (processChunks hashFn selfName now ip port fid st arr).pendingFiles fid =
        some ⟨pf.filename, pf.fileSize, pf.chunksReceived + arr.length, pf.sender⟩ ∧
      alookup (processChunks hashFn selfName now ip port fid st arr).fileChunks fid =
        some (inner ++ arr) := by
  intro arr
  induction arr with
  | nil =>
      intro st pf inner hp hc _ _
      constructor
      · simpa [processChunks] using hp
      · simpa [processChunks] using hc
  | cons q rest ih =>
      intro st pf inner hp hc habs hnd
      rcases q with ⟨seq, data⟩
      have habs0 : alookup inner seq = none := habs (seq, data) (List.mem_cons_self _ _)
      simp only [List.map_cons, List.nodup_cons] at hnd
      have hstep :
          (handle_message hashFn false selfName now st ip port (Msg.chunk fid seq data)).1 =
          { st with
              fileChunks := aupdate st.fileChunks fid (aupdate inner seq data),
              pendingFiles :=
                aupdate st.pendingFiles fid
                  ⟨pf.filename, pf.fileSize, pf.chunksReceived + 1, pf.sender⟩ } := by
        simp [handle_message, hp, hc, habs0]
      have hfold :
          processChunks hashFn selfName now ip port fid st ((seq, data) :: rest) =
          processChunks hashFn selfName now ip port fid
            { st with
                fileChunks := aupdate st.fileChunks fid (aupdate inner seq data),
                pendingFiles :=
                  aupdate st.pendingFiles fid
                    ⟨pf.filename, pf.fileSize, pf.chunksReceived + 1, pf.sender⟩ } rest := by
        simp only [processChunks, List.foldl_cons]
        rw [← hstep]
      have hp1 :
          alookup (aupdate st.pendingFiles fid
              (⟨pf.filename, pf.fileSize, pf.chunksReceived + 1, pf.sender⟩ : PendingFile)) fid =
            some ⟨pf.filename, pf.fileSize, pf.chunksReceived + 1, pf.sender⟩ :=
        alookup_aupdate_self _ _ _
      have hc1 :
          alookup (aupdate st.fileChunks fid (aupdate inner seq data)) fid =
            some (inner ++ [(seq, data)]) := by
        rw [alookup_aupdate_self, aupdate_append_of_absent inner seq data habs0]
      have habs1 : ∀ q2 ∈ rest, alookup (inner ++ [(seq, data)]) q2.1 = none := by
        intro q2 hq2
        have h1 : alookup inner q2.1 = none := habs q2 (List.mem_cons_of_mem _ hq2)
        have h2 : seq ≠ q2.1 := by
          intro he
          exact hnd.1 (he ▸ List.mem_map_of_mem Prod.fst hq2)
        rw [alookup_append _ _ _ h1]
        simp [alookup, h2]
      obtain ⟨ih1, ih2⟩ := ih
        { st with
            fileChunks := aupdate st.fileChunks fid (aupdate inner seq data),
            pendingFiles :=
              aupdate st.pendingFiles fid
                ⟨pf.filename, pf.fileSize, pf.chunksReceived + 1, pf.sender⟩ }
        ⟨pf.filename, pf.fileSize, pf.chunksReceived + 1, pf.sender⟩
        (inner ++ [(seq, data)]) hp1 hc1 habs1 hnd.2
      rw [hfold]
      constructor
      · rw [ih1]
        have harith : pf.chunksReceived + 1 + rest.length =
            pf.chunksReceived + (rest.length + 1) := by omega
        rw [List.length_cons, ← harith]
      · rw [ih2]
        simp [List.append_assoc]

/-- Claim C4: starting from a freshly announced transfer (pending entry
present, empty chunk store) and delivering the chunks of `arr` in *any*
order `arrP` (a permutation of `arr`, sequence numbers distinct), the
store afterwards holds exactly the delivered chunks, the END handler's
first effect writes the reassembled bytes to the declared output path,
and those bytes are the concatenation of the chunk payloads in ascending
sequence-number order — independent of the arrival permutation. -/
theorem end_writes_ascending_concat_any_order (hashFn : Bytes → String)
    (selfName : String) (now : Nat) (st : PState) (ip : String) (port : Nat)
    (fid declHash : String) (pf : PendingFile) (arr arrP : List (Nat × Bytes))
    (hp : alookup st.pendingFiles fid = some pf)
    (hc : alookup st.fileChunks fid = some [])
    (hperm : arr.Perm arrP)
    (hnd : (arr.map Prod.fst).Nodup) :
    alookup (processChunks hashFn selfName now ip port fid st arrP).fileChunks fid =
      some arrP ∧
    (handle_message hashFn false selfName now
        (processChunks hashFn selfName now ip port fid st arrP) ip port
        (Msg.endMsg fid declHash)).2.head? =
      some (Effect.writeFile ("/root/" ++ pf.filename) (reassemble arrP)) ∧
    reassemble arrP = ((sortPairs arr).map Prod.snd).flatten := by
  have hndP : (arrP.map Prod.fst).Nodup := ((hperm.map Prod.fst).nodup_iff).mp hnd
  have habs : ∀ q ∈ arrP, alookup ([] : List (Nat × Bytes)) q.1 = none :=
    fun _ _ => rfl
  obtain ⟨ih1, ih2⟩ :=
    processChunks_state hashFn selfName now ip port fid arrP st pf [] hp hc habs hndP
  rw [List.nil_append] at ih2
  refine ⟨ih2, ?_, ?_⟩
  · by_cases hh : hashFn (reassemble arrP) = declHash <;>
      simp [handle_message, ih1, ih2, hh]
  · rw [reassemble, sortPairs_eq_of_perm arrP arr hperm.symm hndP]

theorem end_writes_ascending_concat_any_order_witness :
    alookup (PState.pendingFiles
        ⟨[], [], [], [("f", ⟨"a.txt", 500, 0, "s"⟩)], [("f", [])]⟩) "f" =
      some ⟨"a.txt", 500, 0, "s"⟩ ∧
    ([((0 : Nat), ([1] : Bytes)), (1, [2])].Perm [(1, [2]), (0, [1])]) ∧
    (([((0 : Nat), ([1] : Bytes)), (1, [2])].map Prod.fst).Nodup) ∧
    (alookup (processChunks (fun _ => "h") "me" 0 "1.1.1.1" 5000 "f"
          ⟨[], [], [], [("f", ⟨"a.txt", 500, 0, "s"⟩)], [("f", [])]⟩
          [(1, [2]), (0, [1])]).fileChunks "f" =
        some [(1, [2]), (0, [1])] ∧
      (handle_message (fun _ => "h") false "me" 0
          (processChunks (fun _ => "h") "me" 0 "1.1.1.1" 5000 "f"
            ⟨[], [], [], [("f", ⟨"a.txt", 500, 0, "s"⟩)], [("f", [])]⟩
            [(1, [2]), (0, [1])]) "1.1.1.1" 5000
          (Msg.endMsg "f" "h")).2.head? =
        some (Effect.writeFile "/root/a.txt" (reassemble [(1, [2]), (0, [1])])) ∧
      reassemble [(1, [2]), (0, [1])] =
        ((sortPairs [(0, [1]), (1, [2])]).map Prod.snd).flatten) := by
  refine ⟨rfl, by decide, by decide, ?_⟩
  exact end_writes_ascending_concat_any_order (fun _ => "h") "me" 0
    ⟨[], [], [], [("f", ⟨"a.txt", 500, 0, "s"⟩)], [("f", [])]⟩ "1.1.1.1" 5000
    "f" "h" ⟨"a.txt", 500, 0, "s"⟩ [(0, [1]), (1, [2])] [(1, [2]), (0, [1])]
    rfl rfl (by decide) (by decide)
